import Mathlib

/-!
Verification of the gonb declaration composer (`goexec/composer.go`).

The Go source is shallowly embedded below: pure functions become Lean
functions, the mutable `WriterWithCursor` becomes explicit state passing,
and the underlying `io.Writer` (an `*os.File`) is modelled as a `Sink`
whose failure behaviour (accept only the first `cap` bytes, then fail)
and close error are explicit.  Strings are treated at character level
(all text in play is ASCII, so Go byte counts and Lean char counts agree).
-/

namespace GoNB

/-- Errors, modelling Go `error` values as produced by this file:
`ioFailure` is an I/O error returned by the underlying writer,
`shortWrite` is the `errors.Errorf("failed to write %q, ...")` value made
in `WriterWithCursor.Write`, and `wrapped` models `errors.Wrapf` /
`errors.WithMessagef` wrapping a cause with a message. -/
inductive Err where
  | ioFailure : Err
  | shortWrite (content : String) (want got : Nat) : Err
  | wrapped (msg : String) (cause : Err) : Err
deriving DecidableEq

/-- `errors.Wrapf` / `errors.WithMessagef` from github.com/pkg/errors:
both return nil when the wrapped error is nil, otherwise they attach the
message.  (This nil-propagation is documented behaviour of that library
and is load-bearing for `mergeCursorAndReportError` below.) -/
def wrapErr (e : Option Err) (msg : String) : Option Err :=
  e.map (Err.wrapped msg)

/-- Modelled from the spec: the position model of `Cursor` (its defining
file is not part of the sources, only `composer.go` is).  A `(line, column)`
value with a distinguished "unmapped" sentinel distinct from any real
(non-negative) position.  Fields are `Int` like Go `int`. -/
structure Cursor where
  line : Int
  col : Int
deriving DecidableEq

/-- Modelled from the spec: the unmapped sentinel, distinct from any real
position (real positions are non-negative). -/
def NoCursor : Cursor := ⟨-1, -1⟩

/-- Modelled from the spec: whether a cursor is a real position rather
than the unmapped sentinel. -/
def Cursor.hasCursor (c : Cursor) : Bool := c ≠ NoCursor

/-- The underlying write destination (an `*os.File` in the source).
`written` is the byte stream accepted so far; `cap` is its failure
behaviour: `none` means writes always succeed, `some K` means the file
accepts only the first `K` bytes and any write going past that point is
short and returns an I/O error.  `closeErr` is the error `Close` will
report. -/
structure Sink where
  written : String
  cap : Option Nat
  closeErr : Option Err
deriving DecidableEq

/-- `String.take` at character level (structural, so proofs can unfold it). -/
def strTake (s : String) (n : Nat) : String := String.mk (s.toList.take n)

/-- One call to the underlying `io.Writer.Write`: returns `(n, err)` and
the new sink state.  On failure the sink keeps the prefix that fit
(never any byte beyond `cap`). -/
def Sink.write (s : Sink) (content : String) : Nat × Option Err × Sink :=
  match s.cap with
  | none => (content.length, none, { s with written := s.written ++ content })
  | some k =>
    if s.written.length + content.length ≤ k then
      (content.length, none, { s with written := s.written ++ content })
    else
      let n := k - s.written.length
      (n, some .ioFailure, { s with written := s.written ++ strTake content n })

/-- `f.Close()` for the modelled file. -/
def Sink.close (s : Sink) : Option Err := s.closeErr

/-- `strings.Split(content, "\n")` on the character list.  Never returns
an empty list; splitting on each newline character. -/
def splitLinesList : List Char → List (List Char)
  | [] => [[]]
  | c :: rest =>
    let r := splitLinesList rest
    if c = '\n' then [] :: r
    else
      match r with
      | [] => [[c]]
      | h :: t => (c :: h) :: t

/-- `strings.Split(content, "\n")`. -/
def splitLines (s : String) : List String :=
  (splitLinesList s.toList).map String.mk

/-- WriterWithCursor: keeps tabs of the current line/col of the file
being written.  If `err` is set, nothing is written anymore. -/
structure WriterWithCursor where
  sink : Sink
  err : Option Err
  line : Int
  col : Int
deriving DecidableEq

/-- NewWriterWithCursor. -/
def NewWriterWithCursor (s : Sink) : WriterWithCursor :=
  { sink := s, err := none, line := 0, col := 0 }

/-- Cursor returns the current position in the file, at the end of what
has been written so far. -/
def WriterWithCursor.cursor (w : WriterWithCursor) : Cursor :=
  ⟨w.line, w.col⟩

/-- CursorPlusDelta returns the expected cursor position in the current
file, assuming the original cursor is `delta` away from the current
position in the file. -/
def WriterWithCursor.cursorPlusDelta (w : WriterWithCursor) (delta : Cursor) : Cursor :=
  let fileCursor := w.cursor
  let fileCursor := { fileCursor with line := fileCursor.line + delta.line }
  if delta.line > 0 then
    { fileCursor with col := delta.col }
  else
    { fileCursor with col := fileCursor.col + delta.col }

/-- Error returns the first error that happened during writing. -/
def WriterWithCursor.errorOf (w : WriterWithCursor) : Option Err := w.err

/-- Write writes the given content and keeps track of the cursor.
Errors can be retrieved with `errorOf`. -/
def WriterWithCursor.write (w : WriterWithCursor) (content : String) : WriterWithCursor :=
  if w.err.isSome then w
  else
    let (n, e, sink') := w.sink.write content
    let e := if n ≠ content.length then some (.shortWrite content content.length n) else e
    if e.isSome then { w with sink := sink', err := e }
    else
      -- Update cursor position.
      let parts := splitLines content
      if parts.length = 1 then
        { w with sink := sink', col := w.col + ((parts.headD "").length : Int) }
      else
        { w with sink := sink',
                 line := w.line + ((parts.length - 1 : Nat) : Int),
                 col := ((parts.getLastD "").length : Int) }

/-- Writef: formats and writes.  The formatted text is taken already
rendered (each call site below concatenates exactly what `fmt.Sprintf`
would produce there). -/
def WriterWithCursor.writef (w : WriterWithCursor) (text : String) : WriterWithCursor :=
  if w.err.isSome then w else w.write text

/-- Go `%q` on the plain identifiers and paths in play: wraps in double
quotes, escaping backslashes and quotes (control-character escaping is
not modelled; no string in this development contains one). -/
def goQuote (s : String) : String :=
  "\"" ++ String.mk (s.toList.flatMap fun c =>
    if c = '"' ∨ c = '\\' then ['\\', c] else [c]) ++ "\""

/-! ### The declaration model

Go maps (`map[string]T`) are embedded as association lists: the list
order is the map's (arbitrary) internal iteration order, and `alookup`
is map indexing.  The entry structures below are modelled from the spec
(§3) and from their uses in `composer.go`: the defining file
`declarations.go` is not among the sources. -/

/-- Map indexing `m[k]` for an association list. -/
def alookup {α : Type} : List (String × α) → String → Option α
  | [], _ => none
  | (k', v) :: rest, k => if k' = k then some v else alookup rest k

/-- The keys of an association list, in internal iteration order. -/
def akeys {α : Type} (m : List (String × α)) : List String :=
  m.map Prod.fst

/-- Two association lists encode the same Go map: unique keys and
identical indexing. -/
def MapEquiv {α : Type} (m₁ m₂ : List (String × α)) : Prop :=
  (akeys m₁).Nodup ∧ (akeys m₂).Nodup ∧ ∀ k, alookup m₁ k = alookup m₂ k

/-- Lexicographic comparison of character lists (Go's `sort.Strings`
compares byte-wise; on Unicode scalar values the two orders agree). -/
def goLeb : List Char → List Char → Bool
  | [], _ => true
  | _ :: _, [] => false
  | a :: as, b :: bs =>
    if a < b then true
    else if b < a then false
    else goLeb as bs

/-- The string order used by `sort.Strings`. -/
def strLe (a b : String) : Prop := goLeb a.toList b.toList = true

instance : DecidableRel strLe := fun a b => by
  unfold strLe
  infer_instance

/-- sortedKeys enumerates keys and sorts them. -/
def sortedKeys {α : Type} (m : List (String × α)) : List String :=
  List.insertionSort strLe (akeys m)

/-- Modelled from the spec: an import entry (`declarations.go` is not in
the sources; fields are those `RenderImports` reads). -/
structure Import where
  -- source field name `Alias` (`alias` is reserved in Lean)
  aliasName : String
  path : String
  cursorInAlias : Bool
  cursorInPath : Bool
  cursor : Cursor
deriving DecidableEq

instance : Inhabited Import := ⟨⟨"", "", false, false, NoCursor⟩⟩

/-- Modelled from the spec: a variable entry (fields are those
`RenderVariables` reads). -/
structure Variable where
  name : String
  typeDefinition : String
  valueDefinition : String
  cursorInName : Bool
  cursorInType : Bool
  cursorInValue : Bool
  cursor : Cursor
deriving DecidableEq

instance : Inhabited Variable := ⟨⟨"", "", "", false, false, false, NoCursor⟩⟩

/-- Modelled from the spec: a type entry (fields are those `RenderTypes`
reads; the type's name is its map key). -/
structure TypeDecl where
  typeDefinition : String
  cursorInKey : Bool
  cursorInType : Bool
  cursor : Cursor
deriving DecidableEq

instance : Inhabited TypeDecl := ⟨⟨"", false, false, NoCursor⟩⟩

/-- Modelled from the spec: a function entry (fields are those
`RenderFunctions` and the composer read). -/
structure Function where
  definition : String
  cursor : Cursor
deriving DecidableEq

instance : Inhabited Function := ⟨⟨"", NoCursor⟩⟩

/-- Modelled from the spec: `HasCursor` on a function declaration. -/
def Function.hasCursor (f : Function) : Bool := f.cursor.hasCursor

/-- Modelled from the spec: a constant entry.  The Go `Prev`/`Next`
pointers linking entries of one `const` block are modelled as optional
keys into the constants map (a pointer dereference becomes `alookup`). -/
structure Constant where
  key : String
  typeDefinition : String
  valueDefinition : String
  cursorInKey : Bool
  cursorInType : Bool
  cursorInValue : Bool
  cursor : Cursor
  prev : Option String
  next : Option String
deriving DecidableEq

instance : Inhabited Constant := ⟨⟨"", "", "", false, false, false, NoCursor, none, none⟩⟩

/-- Modelled from the spec: the category-keyed declaration collections. -/
structure Declarations where
  imports : List (String × Import)
  -- source field name `Variables` (`variables` is reserved in Lean)
  vars : List (String × Variable)
  types : List (String × TypeDecl)
  functions : List (String × Function)
  constants : List (String × Constant)
deriving DecidableEq

/-! ### Category renderers (from `composer.go`) -/

/-- RenderImports writes out `import ( ... )` for all imports in
Declarations. -/
def Declarations.renderImports (d : Declarations) (w : WriterWithCursor) :
    WriterWithCursor × Cursor :=
  let cursor := NoCursor
  if d.imports.length = 0 then (w, cursor)
  else
    let w := w.write "import (\n"
    let (w, cursor) := (sortedKeys d.imports).foldl
      (fun (acc : WriterWithCursor × Cursor) key =>
        let (w, cursor) := acc
        let importDecl : Import := (alookup d.imports key).getD default
        let w := w.write "\t"
        let (w, cursor) :=
          if importDecl.aliasName ≠ "" then
            let cursor :=
              if importDecl.cursorInAlias then w.cursorPlusDelta importDecl.cursor
              else cursor
            (w.writef (importDecl.aliasName ++ " "), cursor)
          else (w, cursor)
        let cursor :=
          if importDecl.cursorInPath then w.cursorPlusDelta importDecl.cursor
          else cursor
        (w.writef (goQuote importDecl.path ++ "\n"), cursor))
      (w, cursor)
    (w.write ")\n\n", cursor)

/-- RenderVariables writes out `var ( ... )` for all variables in
Declarations. -/
def Declarations.renderVariables (d : Declarations) (w : WriterWithCursor) :
    WriterWithCursor × Cursor :=
  let cursor := NoCursor
  if d.vars.length = 0 then (w, cursor)
  else
    let w := w.write "var (\n"
    let (w, cursor) := (sortedKeys d.vars).foldl
      (fun (acc : WriterWithCursor × Cursor) key =>
        let (w, cursor) := acc
        let varDecl : Variable := (alookup d.vars key).getD default
        let w := w.write "\t"
        let cursor :=
          if varDecl.cursorInName then w.cursorPlusDelta varDecl.cursor else cursor
        let w := w.write varDecl.name
        let (w, cursor) :=
          if varDecl.typeDefinition ≠ "" then
            let w := w.write " "
            let cursor :=
              if varDecl.cursorInType then w.cursorPlusDelta varDecl.cursor else cursor
            (w.write varDecl.typeDefinition, cursor)
          else (w, cursor)
        let (w, cursor) :=
          if varDecl.valueDefinition ≠ "" then
            let w := w.write " = "
            let cursor :=
              if varDecl.cursorInValue then w.cursorPlusDelta varDecl.cursor else cursor
            (w.write varDecl.valueDefinition, cursor)
          else (w, cursor)
        (w.write "\n", cursor))
      (w, cursor)
    (w.write ")\n\n", cursor)

/-- `listStartsWith s p`: `p` is a prefix of `s` (Go `strings.HasPrefix`). -/
def listStartsWith : List Char → List Char → Bool
  | _, [] => true
  | [], _ :: _ => false
  | a :: as, b :: bs => a = b && listStartsWith as bs

/-- Go `strings.HasPrefix` at character level. -/
def strStartsWith (s p : String) : Bool := listStartsWith s.toList p.toList

/-- `strings.Replace(s, pat, repl, 1)`: replace the first occurrence. -/
def replaceFirstList (pat repl : List Char) : List Char → List Char
  | [] => if listStartsWith [] pat then repl else []
  | c :: rest =>
    if listStartsWith (c :: rest) pat then repl ++ (c :: rest).drop pat.length
    else c :: replaceFirstList pat repl rest

/-- `strings.Replace(s, pat, repl, 1)`. -/
def replaceFirst (s pat repl : String) : String :=
  String.mk (replaceFirstList pat.toList repl.toList s.toList)

/-- RenderFunctions without comments, for all functions in Declarations. -/
def Declarations.renderFunctions (d : Declarations) (w : WriterWithCursor) :
    WriterWithCursor × Cursor :=
  let cursor := NoCursor
  if d.functions.length = 0 then (w, cursor)
  else
    (sortedKeys d.functions).foldl
      (fun (acc : WriterWithCursor × Cursor) key =>
        let (w, cursor) := acc
        let funcDecl : Function := (alookup d.functions key).getD default
        let defn := funcDecl.definition
        let cursor :=
          if funcDecl.hasCursor then w.cursorPlusDelta funcDecl.cursor else cursor
        let defn :=
          if strStartsWith key "init_" then replaceFirst defn key "init" else defn
        (w.writef (defn ++ "\n\n"), cursor))
      (w, cursor)

/-- RenderTypes without comments. -/
def Declarations.renderTypes (d : Declarations) (w : WriterWithCursor) :
    WriterWithCursor × Cursor :=
  let cursor := NoCursor
  if d.types.length = 0 then (w, cursor)
  else
    let (w, cursor) := (sortedKeys d.types).foldl
      (fun (acc : WriterWithCursor × Cursor) key =>
        let (w, cursor) := acc
        let typeDecl : TypeDecl := (alookup d.types key).getD default
        let w := w.write "type "
        let cursor :=
          if typeDecl.cursorInKey then w.cursorPlusDelta typeDecl.cursor else cursor
        let w := w.writef (key ++ " ")
        let cursor :=
          if typeDecl.cursorInType then w.cursorPlusDelta typeDecl.cursor else cursor
        (w.writef (typeDecl.typeDefinition ++ "\n"), cursor))
      (w, cursor)
    (w.write "\n", cursor)

/-- Render a Constant declaration (without the `const` keyword). -/
def Constant.render (c : Constant) (w : WriterWithCursor) (cursor : Cursor) :
    WriterWithCursor × Cursor :=
  let cursor := if c.cursorInKey then w.cursorPlusDelta c.cursor else cursor
  let w := w.write c.key
  let (w, cursor) :=
    if c.typeDefinition ≠ "" then
      let w := w.write " "
      let cursor := if c.cursorInType then w.cursorPlusDelta c.cursor else cursor
      (w.write c.typeDefinition, cursor)
    else (w, cursor)
  if c.valueDefinition ≠ "" then
    let w := w.write " = "
    let cursor := if c.cursorInValue then w.cursorPlusDelta c.cursor else cursor
    (w.write c.valueDefinition, cursor)
  else (w, cursor)

/-- The `for constDecl != nil` loop of `RenderConstants`: renders the
chain starting at `cur`, following `Next` links (a pointer dereference is
an `alookup` into the constants map).  `fuel` bounds the traversal; the
map's size is enough fuel for any acyclic chain, matching Go where
pointer chains built by the parser are finite and acyclic. -/
def renderConstBlockLoop (constants : List (String × Constant)) :
    Nat → Option Constant → WriterWithCursor → Cursor → WriterWithCursor × Cursor
  | _, none, w, cursor => (w, cursor)
  | 0, some _, w, cursor => (w, cursor)
  | fuel + 1, some c, w, cursor =>
    let w := w.write "\t"
    let (w, cursor) := c.render w cursor
    let w := w.write "\n"
    renderConstBlockLoop constants fuel (c.next.bind (alookup constants)) w cursor

/-- RenderConstants without comments for all constants in Declarations.
Blocks are re-rendered in the same order as originally parsed; block
order is the sort order of the first element of each `const` block. -/
def Declarations.renderConstants (d : Declarations) (w : WriterWithCursor) :
    WriterWithCursor × Cursor :=
  let cursor := NoCursor
  if d.constants.length = 0 then (w, cursor)
  else
    -- Enumerate heads of const blocks (in map iteration order), then sort.
    let headKeys := akeys (d.constants.filter fun p => p.2.prev = none)
    let headKeys := List.insertionSort strLe headKeys
    headKeys.foldl
      (fun (acc : WriterWithCursor × Cursor) headKey =>
        let (w, cursor) := acc
        let constDecl : Constant := (alookup d.constants headKey).getD default
        match constDecl.next with
        | none =>
          -- Render individual const declaration.
          let w := w.write "const "
          let (w, cursor) := constDecl.render w cursor
          (w.write "\n\n", cursor)
        | some _ =>
          -- Render block of constants.
          let w := w.write "const (\n"
          let (w, cursor) :=
            renderConstBlockLoop d.constants d.constants.length (some constDecl) w cursor
          (w.write ")\n\n", cursor))
      (w, cursor)

/-! ### Raw-line composer: `createGoFileFromLines` -/

/-- `for ii, line := range lines` indices, starting at `n`. -/
def enumFromN {α : Type} : Nat → List α → List (Nat × α)
  | _, [] => []
  | n, a :: as => (n, a) :: enumFromN (n + 1) as

/-- The shorthand-directive test of `createGoFileFromLines`:
`strings.HasPrefix(line, "%main") || strings.HasPrefix(line, "%%")`. -/
def isDirectiveLine (line : String) : Bool :=
  strStartsWith line "%main" || strStartsWith line "%%"

/-- The loop state of `createGoFileFromLines`. -/
structure GoFileLoopState where
  w : WriterWithCursor
  createdFuncMain : Bool
  cursorInFile : Cursor
deriving DecidableEq

/-- The body of the `for ii, line := range lines` loop of
`createGoFileFromLines`, one iteration. -/
def goFileStep (skipLines : List Nat) (cursorInCell : Cursor)
    (st : GoFileLoopState) (p : Nat × String) : GoFileLoopState :=
  let (ii, line) := p
  if isDirectiveLine line then
    { st with w := st.w.write "func main() \x7b\n\tflag.Parse\n", createdFuncMain := true }
  else if ii ∈ skipLines then st
  else
    let w := if st.createdFuncMain && (line != "") then st.w.write "\t" else st.w
    let cursorInFile :=
      if (ii : Int) = cursorInCell.line then
        -- Use current line for cursor, but add column.
        w.cursorPlusDelta ⟨0, cursorInCell.col⟩
      else st.cursorInFile
    let w := (w.write line).write "\n"
    { w := w, createdFuncMain := st.createdFuncMain, cursorInFile := cursorInFile }

/-- Result of `createGoFileFromLines`: the returned `(cursorInFile, err)`
pair plus the final state of the file (absent when `os.Create` failed). -/
structure GoFileResult where
  cursorInFile : Cursor
  err : Option Err
  sink : Option Sink
deriving DecidableEq

/-- createGoFileFromLines creates a main.go file from the cell contents.
`openResult` models `os.Create(filePath)`. -/
def createGoFileFromLines (filePath : String) (openResult : Except Err Sink)
    (lines : List String) (skipLines : List Nat) (cursorInCell : Cursor) :
    GoFileResult :=
  match openResult with
  | .error e =>
    { cursorInFile := NoCursor,
      err := some (.wrapped ("Failed to create " ++ goQuote filePath) e),
      sink := none }
  | .ok f =>
    let w := NewWriterWithCursor f
    let w := w.write "package main\n\n"
    let st : GoFileLoopState :=
      { w := w, createdFuncMain := false, cursorInFile := NoCursor }
    let st := (enumFromN 0 lines).foldl (goFileStep skipLines cursorInCell) st
    let w := if st.createdFuncMain then st.w.write "\n\x7d\n" else st.w
    if w.err.isSome then
      -- the deferred Close runs but its error is discarded
      { cursorInFile := st.cursorInFile, err := w.err, sink := some w.sink }
    else
      match w.sink.close with
      | some ce =>
        { cursorInFile := st.cursorInFile,
          err := some (.wrapped ("Failed to close " ++ goQuote filePath) ce),
          sink := some w.sink }
      | none => { cursorInFile := st.cursorInFile, err := none, sink := some w.sink }

/-! ### File composer: `createMainContentsFromDecls` -/

/-- The state threaded through the five phase calls of
`createMainContentsFromDecls`: the writer, the merged cursor, the named
return `err`, the names of the renderer phases invoked so far (an
observation of the control flow, recorded exactly where the source calls
a renderer), and whether an early `return` has been taken. -/
structure PhaseState where
  w : WriterWithCursor
  cursor : Cursor
  err : Option Err
  phases : List String
  aborted : Bool
deriving DecidableEq

/-- `mergeCursorAndReportError` exactly as in the source: note it wraps
the *enclosing* `err` (the named return, still nil at this point), not
`w.Error()`; `errors.WithMessagef` of nil is nil. -/
def mergeCursorAndReportError (err : Option Err) (cursor : Cursor)
    (w : WriterWithCursor) (cursorInFile : Cursor) (name : String) :
    Option Err × Cursor × Bool :=
  if w.err.isSome then
    (wrapErr err ("in block " ++ goQuote name), cursor, true)
  else if cursorInFile.hasCursor then (err, cursorInFile, false)
  else (err, cursor, false)

/-- One `if mergeCursorAndReportError(w, decls.RenderX(w), name) { return }`
step: invokes the renderer (recording the phase name), then merges.  When
an earlier step already returned, nothing further runs. -/
def runPhase (st : PhaseState)
    (render : WriterWithCursor → WriterWithCursor × Cursor) (name : String) :
    PhaseState :=
  if st.aborted then st
  else
    let (w, cursorInFile) := render st.w
    let (err, cursor, abort) :=
      mergeCursorAndReportError st.err st.cursor w cursorInFile name
    { w := w, cursor := cursor, err := err,
      phases := st.phases ++ [name], aborted := abort }

/-- The preamble write and five renderer phases of
`createMainContentsFromDecls`, in their fixed order. -/
def composerPhasesRun (sink : Sink) (decls : Declarations) : PhaseState :=
  let w := NewWriterWithCursor sink
  let w := w.writef "package main\n\n"
  -- (the source checks `if err != nil` here; `err` is still its nil
  -- initial value, so the check never fires)
  let st : PhaseState :=
    { w := w, cursor := NoCursor, err := none, phases := [], aborted := false }
  let st := runPhase st (fun w => decls.renderImports w) "imports"
  let st := runPhase st (fun w => decls.renderTypes w) "types"
  let st := runPhase st (fun w => decls.renderConstants w) "constants"
  let st := runPhase st (fun w => decls.renderVariables w) "variables"
  runPhase st (fun w => decls.renderFunctions w) "functions"

/-- The `(cursor, err)` return of `createMainContentsFromDecls`, plus the
final writer and the phase-invocation trace. -/
structure ComposerResult where
  cursor : Cursor
  err : Option Err
  w : WriterWithCursor
  phases : List String
deriving DecidableEq

/-- createMainContentsFromDecls: preamble, five renderer phases, then the
optional entry-point (`mainDecl`) write. -/
def createMainContentsFromDecls (sink : Sink) (decls : Declarations)
    (mainDecl : Option Function) : ComposerResult :=
  let st := composerPhasesRun sink decls
  if st.aborted then
    { cursor := st.cursor, err := st.err, w := st.w, phases := st.phases }
  else
    match mainDecl with
    | none => { cursor := st.cursor, err := st.err, w := st.w, phases := st.phases }
    | some mainD =>
      let w := st.w.writef "\n"
      let cursor :=
        if mainD.hasCursor then
          -- cursor = mainDecl.Cursor; cursor.Line += w.Line
          ⟨mainD.cursor.line + w.line, mainD.cursor.col⟩
        else st.cursor
      let w := w.writef (mainD.definition ++ "\n")
      { cursor := cursor, err := st.err, w := w,
        phases := st.phases ++ ["entry-point"] }

/-- The error merging at the end of `createMainFileFromDecls`: a content
error is wrapped "creating main.go" and returned; otherwise the close
error is wrapped "closing main.go"; otherwise nil. -/
def mainFileErrCombine (err err2 : Option Err) : Option Err :=
  match err with
  | some e => some (.wrapped "creating main.go" e)
  | none => err2.map (.wrapped "closing main.go")

/-- createMainFileFromDecls: creates the file, renders the contents,
closes the file. -/
def createMainFileFromDecls (openResult : Except Err Sink)
    (decls : Declarations) (mainDecl : Option Function) : Cursor × Option Err :=
  match openResult with
  | .error e => (⟨0, 0⟩, some e)  -- named return `cursor` is Go's zero value here
  | .ok f =>
    let r := createMainContentsFromDecls f decls mainDecl
    let err2 := r.w.sink.close
    (r.cursor, mainFileErrCombine r.err err2)

/-! ### `writeLinesToFile` -/

/-- The `for line := range lines` loop of `writeLinesToFile`: after an
error, it keeps reading to the end of the channel, discarding input. -/
def writeLinesLoop (filePath : String) (f : Sink) (lines : List String) :
    Option Err × Sink :=
  lines.foldl
    (fun (acc : Option Err × Sink) line =>
      let (err, f) := acc
      match err with
      | some _ => acc
      | none =>
        let (_, e, f') := f.write (line ++ "\n")
        match e with
        | some e' => (some (.wrapped ("writing to " ++ goQuote filePath) e'), f')
        | none => (none, f'))
    (none, f)

/-- writeLinesToFile: creates the file, writes each line with a newline,
and closes it via a defer that reports the close error only when no
earlier error exists. -/
def writeLinesToFile (filePath : String) (openResult : Except Err Sink)
    (lines : List String) : Option Err × Option Sink :=
  match openResult with
  | .error e => (some (.wrapped ("creating " ++ goQuote filePath) e), none)
  | .ok f =>
    let (err, f) := writeLinesLoop filePath f lines
    match f.close, err with
    | some ce, none => (some (.wrapped ("closing " ++ goQuote filePath) ce), some f)
    | _, _ => (err, some f)

/-! ### Specification-side definitions and example inputs

Everything below up to the helper-lemma section is either a
specification-side definition (used on the right-hand side of a
refinement statement and clearly named as such) or a concrete example
input used by witnesses and counterexamples. -/

/-- The writer is error-free and its sink never fails. -/
def GoodW (w : WriterWithCursor) : Prop :=
  w.err = none ∧ w.sink.cap = none

/-- Chain links of a constant block, next-direction: entry i's `Next`
names entry i+1's key and the last entry has no `Next`. -/
def chainNextLinked : List (String × Constant) → Bool
  | [] => true
  | [(_, c)] => c.next.isNone
  | (_, c) :: (k', c') :: rest => c.next == some k' && chainNextLinked ((k', c') :: rest)

/-- Chain links of a constant block, prev-direction: the first entry's
`Prev` is the given key (none at a block head) and each later entry's
`Prev` names its predecessor's key. -/
def chainPrevOk : Option String → List (String × Constant) → Bool
  | _, [] => true
  | pk, (k, c) :: rest => c.prev == pk && chainPrevOk (some k) rest

/-- One chain entry of a multi-entry block as the spec renders it:
tab, the entry, newline. -/
def chainBlockStep (acc : WriterWithCursor × Cursor) (p : String × Constant) :
    WriterWithCursor × Cursor :=
  let (w, cursor) := acc
  let w := w.write "\t"
  let (w, cursor) := p.2.render w cursor
  (w.write "\n", cursor)

/-- Specification-side rendering of one constant block, straight from
the spec's words: a one-entry block becomes a single inline `const`
declaration; a multi-entry block is rendered inside one enclosing
`const ( ... )` block in chain order head to tail. -/
def renderChainSpec (cs : List (String × Constant)) (w : WriterWithCursor)
    (cursor : Cursor) : WriterWithCursor × Cursor :=
  match cs with
  | [] => (w, cursor)
  | [(_, c)] =>
    let w := w.write "const "
    let (w, cursor) := c.render w cursor
    (w.write "\n\n", cursor)
  | _ =>
    let w := w.write "const (\n"
    let (w, cursor) := cs.foldl chainBlockStep (w, cursor)
    (w.write ")\n\n", cursor)

/-- A declaration model holding exactly the aliased import of C2's
example. -/
def exampleAliasDecls : Declarations :=
  ⟨[("fmt", ⟨"f", "fmt", true, false, ⟨0, 2⟩⟩)], [], [], [], []⟩

/-- A writer whose first write already failed. -/
def exampleFrozenW : WriterWithCursor := ⟨⟨"x", none, none⟩, some .ioFailure, 0, 1⟩

/-- A file that accepts three bytes then fails, whose close also fails. -/
def exampleFailFile : Sink := ⟨"", some 3, some .ioFailure⟩

/-- A declaration model with no declarations at all. -/
def exampleEmptyDecls : Declarations := ⟨[], [], [], [], []⟩

/-- An entry-point declaration carrying a position marker. -/
def exampleEntryFn : Function := ⟨"func main() \x7b\x7d", ⟨2, 7⟩⟩

/-- A two-entry constant chain, head entry. -/
def exampleConstHead : Constant :=
  ⟨"a", "", "1", false, false, false, NoCursor, none, some "b"⟩

/-- A two-entry constant chain, tail entry. -/
def exampleConstTail : Constant :=
  ⟨"b", "", "", false, false, false, NoCursor, some "a", none⟩

/-- The chain a → b in chain order. -/
def exampleChain : List (String × Constant) :=
  [("a", exampleConstHead), ("b", exampleConstTail)]

/-- A declaration model holding the chain in head-first iteration order. -/
def exampleConstsA : Declarations := ⟨[], [], [], [], exampleChain⟩

/-- The same constants map iterated tail-first. -/
def exampleConstsB : Declarations :=
  ⟨[], [], [], [], [("b", exampleConstTail), ("a", exampleConstHead)]⟩

/-- Two iteration orders of the same two-entry import map. -/
def exampleImportsA : Declarations :=
  ⟨[("fmt", ⟨"", "fmt", false, false, NoCursor⟩),
    ("os", ⟨"", "os", false, false, NoCursor⟩)], [], [], [], []⟩

/-- The same map as `exampleImportsA`, iterated in the other order. -/
def exampleImportsB : Declarations :=
  ⟨[("os", ⟨"", "os", false, false, NoCursor⟩),
    ("fmt", ⟨"", "fmt", false, false, NoCursor⟩)], [], [], [], []⟩

/-! ### Helper lemmas about the writer -/

/-- A frozen writer (error already set) ignores `Write` entirely. -/
theorem write_frozen (w : WriterWithCursor) (e : Err) (h : w.err = some e)
    (s : String) : w.write s = w := by
  unfold WriterWithCursor.write
  simp [h]

/-- `Writef` is `Write` of the formatted text (both guard on the error). -/
theorem writef_eq_write (w : WriterWithCursor) (s : String) :
    w.writef s = w.write s := by
  unfold WriterWithCursor.writef
  split
  · next h =>
    obtain ⟨e, he⟩ := Option.isSome_iff_exists.1 h
    exact (write_frozen w e he s).symm
  · rfl

/-- `Write` on an error-free, never-failing sink: appends the content and
advances the cursor by the content's line structure. -/
theorem write_ok (w : WriterWithCursor) (content : String)
    (h1 : w.err = none) (h2 : w.sink.cap = none) :
    w.write content =
      if (splitLines content).length = 1 then
        { w with
            sink := { w.sink with written := w.sink.written ++ content },
            col := w.col + (((splitLines content).headD "").length : Int) }
      else
        { w with
            sink := { w.sink with written := w.sink.written ++ content },
            line := w.line + (((splitLines content).length - 1 : Nat) : Int),
            col := (((splitLines content).getLastD "").length : Int) } := by
  unfold WriterWithCursor.write Sink.write
  rw [h2]
  simp [h1, h2]

theorem write_goodW {w : WriterWithCursor} (s : String) (h : GoodW w) :
    GoodW (w.write s) := by
  rw [write_ok w s h.1 h.2]
  split <;> exact ⟨h.1, h.2⟩

theorem write_written {w : WriterWithCursor} (s : String) (h : GoodW w) :
    (w.write s).sink.written = w.sink.written ++ s := by
  rw [write_ok w s h.1 h.2]
  split <;> rfl

theorem write_closeErr {w : WriterWithCursor} (s : String) (h : GoodW w) :
    (w.write s).sink.closeErr = w.sink.closeErr := by
  rw [write_ok w s h.1 h.2]
  split <;> rfl

theorem write_tab (w : WriterWithCursor) (h : GoodW w) :
    w.write "\t" =
      { w with
          sink := { w.sink with written := w.sink.written ++ "\t" },
          col := w.col + 1 } := by
  rw [write_ok w _ h.1 h.2, show splitLines "\t" = ["\t"] from rfl]
  norm_num
  rfl

theorem write_newline (w : WriterWithCursor) (h : GoodW w) :
    w.write "\n" =
      { w with
          sink := { w.sink with written := w.sink.written ++ "\n" },
          line := w.line + 1, col := 0 } := by
  rw [write_ok w _ h.1 h.2, show splitLines "\n" = ["", ""] from rfl]
  norm_num

theorem write_importHeader (w : WriterWithCursor) (h : GoodW w) :
    w.write "import (\n" =
      { w with
          sink := { w.sink with written := w.sink.written ++ "import (\n" },
          line := w.line + 1, col := 0 } := by
  rw [write_ok w _ h.1 h.2, show splitLines "import (\n" = ["import (", ""] from rfl]
  norm_num

/-- A fold preserves any invariant its step preserves. -/
theorem foldl_invariant {α β : Type} (P : α → Prop) (f : α → β → α) :
    ∀ (l : List β) (a : α), (∀ a b, P a → P (f a b)) → P a → P (l.foldl f a)
  | [], _, _, ha => ha
  | b :: l, a, h, ha => foldl_invariant P f l (f a b) h (h a b ha)


/-! ### The byte-lexicographic string order -/

theorem goLeb_total : ∀ (as bs : List Char), goLeb as bs = true ∨ goLeb bs as = true
  | [], bs => by cases bs <;> simp [goLeb]
  | a :: as, [] => by simp [goLeb]
  | a :: as, b :: bs => by
    rcases lt_trichotomy a b with h | h | h
    · left
      simp [goLeb, h]
    · subst h
      rcases goLeb_total as bs with h' | h'
      · left
        simp [goLeb, h']
      · right
        simp [goLeb, h']
    · right
      simp [goLeb, h]

theorem goLeb_trans : ∀ (as bs cs : List Char),
    goLeb as bs = true → goLeb bs cs = true → goLeb as cs = true
  | [], bs, cs, _, _ => rfl
  | a :: as, [], cs, h, _ => by simp [goLeb] at h
  | a :: as, b :: bs, [], _, h => by simp [goLeb] at h
  | a :: as, b :: bs, c :: cs, h1, h2 => by
    rcases lt_trichotomy a b with hab | hab | hab
    · rcases lt_trichotomy b c with hbc | hbc | hbc
      · simp [goLeb, lt_trans hab hbc]
      · subst hbc
        simp [goLeb, hab]
      · simp [goLeb, lt_asymm hbc, hbc] at h2
    · subst hab
      rcases lt_trichotomy a c with hbc | hbc | hbc
      · simp [goLeb, hbc]
      · subst hbc
        simp only [goLeb, lt_self_iff_false, if_false] at h1 h2 ⊢
        exact goLeb_trans as bs cs h1 h2
      · simp [goLeb, lt_asymm hbc, hbc] at h2
    · simp [goLeb, lt_asymm hab, hab] at h1

theorem goLeb_antisymm : ∀ (as bs : List Char),
    goLeb as bs = true → goLeb bs as = true → as = bs
  | [], [], _, _ => rfl
  | [], b :: bs, _, h => by simp [goLeb] at h
  | a :: as, [], h, _ => by simp [goLeb] at h
  | a :: as, b :: bs, h1, h2 => by
    rcases lt_trichotomy a b with hab | hab | hab
    · simp [goLeb, lt_asymm hab, hab] at h2
    · subst hab
      simp only [goLeb, lt_self_iff_false, if_false] at h1 h2
      rw [goLeb_antisymm as bs h1 h2]
    · simp [goLeb, lt_asymm hab, hab] at h1

theorem strLe_isTotal : IsTotal String strLe :=
  ⟨fun a b => goLeb_total a.toList b.toList⟩

theorem strLe_isTrans : IsTrans String strLe :=
  ⟨fun a b c => goLeb_trans a.toList b.toList c.toList⟩

theorem strLe_isAntisymm : IsAntisymm String strLe :=
  ⟨fun a b h1 h2 => by
    have := goLeb_antisymm a.toList b.toList h1 h2
    cases a with
    | mk da =>
      cases b with
      | mk db =>
        simp only [String.toList] at this
        exact congrArg String.mk this⟩

/-! ### C2: CursorPlusDelta arithmetic and the import-alias mapping -/

/-- C2: for every writer state and delta, `CursorPlusDelta` yields
line = line + dl; column = dc when dl > 0 and column = col + dc when
dl = 0.  Moreover an import entry `{alias: "f", path: "fmt", marker:
alias, delta: (0,2)}` is mapped by `RenderImports` to the writer's line
at the alias token (the line after writing "import (" and the tab) with
column = (column at start of alias, namely 1) + 2. -/
theorem cursorPlusDelta_spec (w : WriterWithCursor) (delta : Cursor) :
    (w.cursorPlusDelta delta).line = w.line + delta.line
    ∧ (delta.line > 0 → (w.cursorPlusDelta delta).col = delta.col)
    ∧ (delta.line = 0 → (w.cursorPlusDelta delta).col = w.col + delta.col)
    ∧ (∀ (key : String) (d : Declarations),
        d.imports = [(key, ⟨"f", "fmt", true, false, ⟨0, 2⟩⟩)] →
        GoodW w →
        (d.renderImports w).2 =
          ⟨((w.write "import (\n").write "\t").line,
           ((w.write "import (\n").write "\t").col + 2⟩
        ∧ (d.renderImports w).2 = ⟨w.line + 1, 1 + 2⟩) := by
  refine ⟨?_, ?_, ?_, ?_⟩
  · unfold WriterWithCursor.cursorPlusDelta WriterWithCursor.cursor
    split <;> rfl
  · intro h
    unfold WriterWithCursor.cursorPlusDelta WriterWithCursor.cursor
    simp [h]
  · intro h
    unfold WriterWithCursor.cursorPlusDelta WriterWithCursor.cursor
    simp [h]
  · intro key d hd hw
    have hgood1 : GoodW (w.write "import (\n") := write_goodW _ hw
    unfold Declarations.renderImports
    rw [hd]
    simp only [List.length_cons, List.length_nil, sortedKeys, akeys, List.map,
      List.insertionSort, List.orderedInsert, List.foldl, alookup]
    norm_num
    rw [write_importHeader w hw, write_tab _ (by rw [← write_importHeader w hw]; exact hgood1)]
    unfold WriterWithCursor.cursorPlusDelta WriterWithCursor.cursor
    norm_num
    simp

theorem cursorPlusDelta_spec_witness :
    ((2 : Int) > 0
      ∧ ((NewWriterWithCursor ⟨"", none, none⟩).cursorPlusDelta ⟨2, 5⟩).col = 5)
    ∧ ((exampleAliasDecls.renderImports (NewWriterWithCursor ⟨"", none, none⟩)).2
        = ⟨0 + 1, 1 + 2⟩) :=
  ⟨⟨by decide, (cursorPlusDelta_spec (NewWriterWithCursor ⟨"", none, none⟩) ⟨2, 5⟩).2.1 (by decide)⟩,
   ((cursorPlusDelta_spec (NewWriterWithCursor ⟨"", none, none⟩) ⟨0, 0⟩).2.2.2
      "fmt" exampleAliasDecls rfl ⟨rfl, rfl⟩).2⟩

/-! ### C4: the sticky first error of the tracking sink -/

/-- C4: once the writer's error field is set, every subsequent `Write`
or `Writef` leaves the writer (sink bytes, Line, Col, error) entirely
unchanged, and `Error()` still returns the first failure. -/
theorem writer_sticky_error (w : WriterWithCursor) (e : Err) (s t : String)
    (h : w.err = some e) :
    w.write s = w ∧ w.writef t = w ∧ w.errorOf = some e :=
  ⟨write_frozen w e h s,
   by rw [writef_eq_write]; exact write_frozen w e h t,
   h⟩

theorem writer_sticky_error_witness :
    exampleFrozenW.err = some .ioFailure
    ∧ (exampleFrozenW.write "abc" = exampleFrozenW
       ∧ exampleFrozenW.writef "d" = exampleFrozenW
       ∧ exampleFrozenW.errorOf = some .ioFailure) :=
  ⟨rfl, writer_sticky_error exampleFrozenW .ioFailure "abc" "d" rfl⟩

/-! ### Map-equivalence machinery (for C8 and C3) -/

theorem alookup_isSome_iff {α : Type} (m : List (String × α)) (k : String) :
    (alookup m k).isSome ↔ k ∈ akeys m := by
  induction m with
  | nil => simp [alookup, akeys]
  | cons p rest ih =>
    obtain ⟨k', v⟩ := p
    by_cases h : k' = k
    · subst h
      simp [alookup, akeys]
    · simp [alookup, akeys, h, ih, Ne.symm h]

theorem mapEquiv_keys_perm {α : Type} {m₁ m₂ : List (String × α)}
    (h : MapEquiv m₁ m₂) : List.Perm (akeys m₁) (akeys m₂) :=
  (List.perm_ext_iff_of_nodup h.1 h.2.1).2 fun k => by
    rw [← alookup_isSome_iff, ← alookup_isSome_iff, h.2.2 k]

theorem mapEquiv_length {α : Type} {m₁ m₂ : List (String × α)}
    (h : MapEquiv m₁ m₂) : m₁.length = m₂.length := by
  have := (mapEquiv_keys_perm h).length_eq
  simpa [akeys] using this

theorem mapEquiv_sortedKeys {α : Type} {m₁ m₂ : List (String × α)}
    (h : MapEquiv m₁ m₂) : sortedKeys m₁ = sortedKeys m₂ := by
  haveI := strLe_isTotal
  haveI := strLe_isTrans
  haveI := strLe_isAntisymm
  exact List.eq_of_perm_of_sorted
    (((List.perm_insertionSort _ _).trans (mapEquiv_keys_perm h)).trans
      (List.perm_insertionSort _ _).symm)
    (List.sorted_insertionSort _ _) (List.sorted_insertionSort _ _)

/-! ### C8: deterministic, sorted rendering -/

/-- C8: the import, type, variable and function renderers depend on
their map only through its key set and indexing — any two internal
iteration orders of the same map render byte-identical output (so
rendering the same model twice is byte-identical) — and the key list
each fold visits is the lexicographically sorted permutation of the
map's keys. -/
theorem render_deterministic (d₁ d₂ : Declarations) (w : WriterWithCursor) :
    (MapEquiv d₁.imports d₂.imports → d₁.renderImports w = d₂.renderImports w)
    ∧ (MapEquiv d₁.types d₂.types → d₁.renderTypes w = d₂.renderTypes w)
    ∧ (MapEquiv d₁.vars d₂.vars → d₁.renderVariables w = d₂.renderVariables w)
    ∧ (MapEquiv d₁.functions d₂.functions →
        d₁.renderFunctions w = d₂.renderFunctions w)
    ∧ (∀ (α : Type) (m : List (String × α)),
        List.Sorted strLe (sortedKeys m)
        ∧ List.Perm (sortedKeys m) (akeys m)) := by
  refine ⟨?_, ?_, ?_, ?_, ?_⟩
  · intro h
    unfold Declarations.renderImports
    rw [mapEquiv_length h, mapEquiv_sortedKeys h]
    simp only [h.2.2]
  · intro h
    unfold Declarations.renderTypes
    rw [mapEquiv_length h, mapEquiv_sortedKeys h]
    simp only [h.2.2]
  · intro h
    unfold Declarations.renderVariables
    rw [mapEquiv_length h, mapEquiv_sortedKeys h]
    simp only [h.2.2]
  · intro h
    unfold Declarations.renderFunctions
    rw [mapEquiv_length h, mapEquiv_sortedKeys h]
    simp only [h.2.2]
  · intro α m
    haveI := strLe_isTotal
    haveI := strLe_isTrans
    exact ⟨List.sorted_insertionSort _ _, List.perm_insertionSort _ _⟩

theorem render_deterministic_witness :
    exampleImportsA.renderImports (NewWriterWithCursor ⟨"", none, none⟩)
      = exampleImportsB.renderImports (NewWriterWithCursor ⟨"", none, none⟩) :=
  (render_deterministic exampleImportsA exampleImportsB
      (NewWriterWithCursor ⟨"", none, none⟩)).1
    ⟨by decide, by decide, by
      intro k
      by_cases h1 : "fmt" = k
      · subst h1
        decide
      · by_cases h2 : "os" = k
        · subst h2
          decide
        · simp [exampleImportsA, exampleImportsB, alookup, h1, h2]⟩

/-! ### Chain lemmas (for C3) -/

theorem alookup_of_mem_nodup {α : Type} :
    ∀ {m : List (String × α)}, (akeys m).Nodup →
      ∀ {k : String} {c : α}, (k, c) ∈ m → alookup m k = some c := by
  intro m
  induction m with
  | nil => intro _ k c h; simp at h
  | cons p rest ih =>
    intro hnd k c h
    obtain ⟨k', v⟩ := p
    simp only [akeys, List.map_cons, List.nodup_cons] at hnd
    rcases List.mem_cons.1 h with h' | h'
    · simp only [Prod.mk.injEq] at h'
      obtain ⟨rfl, rfl⟩ := h'
      simp [alookup]
    · have hk : k' ≠ k := fun he => hnd.1 (he ▸ List.mem_map_of_mem Prod.fst h')
      simpa [alookup, hk] using ih hnd.2 h'

theorem mem_of_alookup {α : Type} :
    ∀ {m : List (String × α)} {k : String} {c : α},
      alookup m k = some c → (k, c) ∈ m := by
  intro m
  induction m with
  | nil => intro k c h; simp [alookup] at h
  | cons p rest ih =>
    intro k c h
    obtain ⟨k', v⟩ := p
    by_cases hk : k' = k
    · subst hk
      rw [show alookup ((k', v) :: rest) k' = some v by simp [alookup]] at h
      obtain rfl := Option.some.inj h
      exact List.mem_cons_self _ _
    · simp only [alookup, if_neg hk] at h
      exact List.mem_cons_of_mem _ (ih h)

theorem chainPrevOk_no_none :
    ∀ (l : List (String × Constant)) (pk : String),
      chainPrevOk (some pk) l = true → ∀ p ∈ l, p.2.prev ≠ none
  | [], _, _, p, hp => by simp at hp
  | (k, c) :: rest, pk, h, p, hp => by
    simp only [chainPrevOk, Bool.and_eq_true, beq_iff_eq] at h
    rcases List.mem_cons.1 hp with h' | h'
    · subst h'
      simp [h.1]
    · exact chainPrevOk_no_none rest k h.2 p h'

theorem chain_filter_heads (k0 : String) (c0 : Constant)
    (rest : List (String × Constant))
    (h : chainPrevOk none ((k0, c0) :: rest) = true) :
    ((k0, c0) :: rest).filter (fun p => p.2.prev = none) = [(k0, c0)] := by
  simp only [chainPrevOk, Bool.and_eq_true, beq_iff_eq] at h
  rw [List.filter_cons_of_pos (by simp [h.1])]
  rw [List.filter_eq_nil_iff.2 fun p hp => by
    simpa using chainPrevOk_no_none rest k0 h.2 p hp]

theorem renderConstBlockLoop_succ (m : List (String × Constant)) (fuel : Nat)
    (c : Constant) (w : WriterWithCursor) (cursor : Cursor) :
    renderConstBlockLoop m (fuel + 1) (some c) w cursor =
      (let w1 := w.write "\t"
       let r := c.render w1 cursor
       renderConstBlockLoop m fuel (c.next.bind (alookup m)) (r.1.write "\n") r.2) := rfl

theorem chainBlockStep_eq (acc : WriterWithCursor × Cursor) (p : String × Constant) :
    chainBlockStep acc p =
      ((p.2.render (acc.1.write "\t") acc.2).1.write "\n",
       (p.2.render (acc.1.write "\t") acc.2).2) := rfl

theorem renderConstBlockLoop_congr {m₁ m₂ : List (String × Constant)}
    (hl : ∀ k, alookup m₁ k = alookup m₂ k) :
    ∀ (fuel : Nat) (cur : Option Constant) (w : WriterWithCursor) (cursor : Cursor),
      renderConstBlockLoop m₁ fuel cur w cursor = renderConstBlockLoop m₂ fuel cur w cursor
  | fuel, none, w, cursor => by cases fuel <;> rfl
  | 0, some c, w, cursor => rfl
  | fuel + 1, some c, w, cursor => by
    unfold renderConstBlockLoop
    have : c.next.bind (alookup m₁) = c.next.bind (alookup m₂) := by
      cases c.next <;> simp [hl]
    rw [this]
    exact renderConstBlockLoop_congr hl fuel _ _ _

/-- The source's fuel-guarded chain traversal renders exactly the chain
list, in order, when the links are consistent and the map contains the
chain. -/
theorem renderConstBlockLoop_eq (m : List (String × Constant)) :
    ∀ (suf : List (String × Constant)) (fuel : Nat) (w : WriterWithCursor)
      (cursor : Cursor),
      chainNextLinked suf = true →
      (∀ p ∈ suf, alookup m p.1 = some p.2) →
      suf.length ≤ fuel →
      renderConstBlockLoop m fuel ((suf.head?).map Prod.snd) w cursor =
        suf.foldl chainBlockStep (w, cursor)
  | [], fuel, w, cursor, _, _, _ => by cases fuel <;> rfl
  | (k, c) :: rest, fuel, w, cursor, hnext, hlk, hfuel => by
    cases fuel with
    | zero => simp at hfuel
    | succ f =>
      have hhead : ((((k, c) :: rest)).head?).map Prod.snd = some c := rfl
      rw [hhead, renderConstBlockLoop_succ]
      have hnth : c.next.bind (alookup m) = (rest.head?).map Prod.snd := by
        cases rest with
        | nil =>
          simp only [chainNextLinked] at hnext
          rw [Option.isNone_iff_eq_none.1 hnext]
          rfl
        | cons q rest' =>
          obtain ⟨k1, c1⟩ := q
          simp only [chainNextLinked, Bool.and_eq_true, beq_iff_eq] at hnext
          rw [hnext.1]
          simp only [Option.some_bind, List.head?, Option.map_some]
          exact hlk (k1, c1) (List.mem_cons_of_mem _ (List.mem_cons_self _ _))
      rw [hnth]
      simp only [List.foldl_cons, chainBlockStep_eq]
      exact renderConstBlockLoop_eq m rest f _ _
        (by
          cases rest with
          | nil => rfl
          | cons q rest' =>
            obtain ⟨k1, c1⟩ := q
            simp only [chainNextLinked, Bool.and_eq_true, beq_iff_eq] at hnext
            exact hnext.2)
        (fun p hp => hlk p (List.mem_cons_of_mem _ hp))
        (Nat.succ_le_succ_iff.1 hfuel)

theorem akeys_filter_nodup {α : Type} {m : List (String × α)}
    (hnd : (akeys m).Nodup) (P : String × α → Bool) :
    (akeys (m.filter P)).Nodup :=
  ((List.filter_sublist m).map Prod.fst).nodup hnd

theorem mem_akeys_filter_prev {m : List (String × Constant)}
    (hnd : (akeys m).Nodup) (k : String) :
    k ∈ akeys (m.filter fun p => p.2.prev = none) ↔
      ∃ c, alookup m k = some c ∧ c.prev = none := by
  simp only [akeys, List.mem_map, List.mem_filter]
  constructor
  · rintro ⟨⟨k', c⟩, ⟨hm, hp⟩, rfl⟩
    exact ⟨c, alookup_of_mem_nodup hnd hm, by simpa using hp⟩
  · rintro ⟨c, hlk, hp⟩
    exact ⟨(k, c), ⟨mem_of_alookup hlk, by simpa using hp⟩, rfl⟩

/-! ### C3: constant blocks render in chain order -/

/-- C3: `RenderConstants` enumerates exactly the no-previous-link entries
as block heads and sorts blocks by head key; its output depends only on
the constants map, not its internal iteration order (first conjunct:
equivalent maps render identically); and a map holding one constant
chain is rendered exactly as the spec's chain-order form: a one-entry
chain as a single inline `const`, a longer chain inside one
`const ( ... )` block, entries in chain order head to tail
(second conjunct, against the spec-side `renderChainSpec`). -/
theorem renderConstants_chain (d₁ d₂ : Declarations) (w : WriterWithCursor)
    (cs : List (String × Constant)) :
    (MapEquiv d₁.constants d₂.constants →
       d₁.renderConstants w = d₂.renderConstants w)
    ∧ (d₁.constants = cs → cs ≠ [] → (akeys cs).Nodup →
       chainNextLinked cs = true → chainPrevOk none cs = true →
       d₁.renderConstants w = renderChainSpec cs w NoCursor) := by
  constructor
  · intro h
    unfold Declarations.renderConstants
    rw [mapEquiv_length h]
    haveI := strLe_isTotal
    haveI := strLe_isTrans
    haveI := strLe_isAntisymm
    have hheads :
        List.insertionSort strLe (akeys (d₁.constants.filter fun p => p.2.prev = none))
          = List.insertionSort strLe (akeys (d₂.constants.filter fun p => p.2.prev = none)) := by
      apply List.eq_of_perm_of_sorted _ (List.sorted_insertionSort _ _)
        (List.sorted_insertionSort _ _)
      refine ((List.perm_insertionSort _ _).trans ?_).trans
        (List.perm_insertionSort _ _).symm
      refine (List.perm_ext_iff_of_nodup (akeys_filter_nodup h.1 _)
        (akeys_filter_nodup h.2.1 _)).2 fun k => ?_
      rw [mem_akeys_filter_prev h.1 k, mem_akeys_filter_prev h.2.1 k]
      simp [h.2.2]
    simp only [hheads, h.2.2, renderConstBlockLoop_congr h.2.2, mapEquiv_length h]
  · intro hcs hne hnd hnext hprev
    unfold Declarations.renderConstants
    rw [hcs]
    cases cs with
    | nil => exact absurd rfl hne
    | cons p rest =>
      obtain ⟨k0, c0⟩ := p
      rw [chain_filter_heads k0 c0 rest hprev]
      simp only [akeys, List.map_cons, List.map_nil, List.insertionSort,
        List.orderedInsert, List.length_cons, List.foldl_cons, List.foldl_nil]
      rw [if_neg (by simp)]
      rw [show alookup ((k0, c0) :: rest) k0 = some c0 by simp [alookup]]
      simp only [Option.getD_some]
      cases rest with
      | nil =>
        have hn : c0.next = none := by
          simpa [chainNextLinked, Option.isNone_iff_eq_none] using hnext
        rw [hn]
        simp [renderChainSpec]
      | cons q rest' =>
        obtain ⟨k1, c1⟩ := q
        have hn : c0.next = some k1 := by
          simp only [chainNextLinked, Bool.and_eq_true, beq_iff_eq] at hnext
          exact hnext.1
        rw [hn]
        have hloop := renderConstBlockLoop_eq ((k0, c0) :: (k1, c1) :: rest')
          ((k0, c0) :: (k1, c1) :: rest')
          ((k0, c0) :: (k1, c1) :: rest').length
          ((w.write "const (\n")) NoCursor hnext
          (fun p hp => alookup_of_mem_nodup hnd hp) le_rfl
        simp only [List.head?_cons, Option.map_some', List.length_cons] at hloop
        simp only [List.length_cons]
        rw [hloop]
        simp [renderChainSpec]

theorem renderConstants_chain_witness :
    (exampleConstsA.renderConstants (NewWriterWithCursor ⟨"", none, none⟩)
       = exampleConstsB.renderConstants (NewWriterWithCursor ⟨"", none, none⟩))
    ∧ (exampleConstsA.renderConstants (NewWriterWithCursor ⟨"", none, none⟩)
       = renderChainSpec exampleChain (NewWriterWithCursor ⟨"", none, none⟩) NoCursor) :=
  ⟨(renderConstants_chain exampleConstsA exampleConstsB
      (NewWriterWithCursor ⟨"", none, none⟩) exampleChain).1
    ⟨by decide, by decide, by
      intro k
      by_cases h1 : "a" = k
      · subst h1
        decide
      · by_cases h2 : "b" = k
        · subst h2
          decide
        · simp [exampleConstsA, exampleConstsB, exampleChain, alookup, h1, h2]⟩,
   (renderConstants_chain exampleConstsA exampleConstsB
      (NewWriterWithCursor ⟨"", none, none⟩) exampleChain).2
     rfl (by decide) (by decide) (by decide) (by decide)⟩

/-! ### Writer goodness and frozen-writer lemmas -/

theorem writef_frozen (w : WriterWithCursor) (e : Err) (h : w.err = some e)
    (s : String) : w.writef s = w := by
  rw [writef_eq_write]
  exact write_frozen w e h s

theorem writef_goodW {w : WriterWithCursor} (s : String) (h : GoodW w) :
    GoodW (w.writef s) := by
  rw [writef_eq_write]
  exact write_goodW s h

theorem goodW_ite_fst {c : Prop} [Decidable c] {p q : WriterWithCursor × Cursor}
    (hp : GoodW p.1) (hq : GoodW q.1) : GoodW (if c then p else q).1 := by
  split
  · exact hp
  · exact hq

theorem renderImports_good (d : Declarations) {w : WriterWithCursor} (h : GoodW w) :
    GoodW (d.renderImports w).1 := by
  unfold Declarations.renderImports
  by_cases hl : d.imports.length = 0
  · simpa [hl] using h
  · simp only [hl, if_false]
    refine write_goodW _ (foldl_invariant
      (fun acc : WriterWithCursor × Cursor => GoodW acc.1) _ _ _ ?_ (write_goodW _ h))
    intro acc key hacc
    obtain ⟨w1, c1⟩ := acc
    dsimp only
    repeat' first
      | apply writef_goodW
      | apply write_goodW
      | apply goodW_ite_fst
      | exact hacc

theorem renderVariables_good (d : Declarations) {w : WriterWithCursor} (h : GoodW w) :
    GoodW (d.renderVariables w).1 := by
  unfold Declarations.renderVariables
  by_cases hl : d.vars.length = 0
  · simpa [hl] using h
  · simp only [hl, if_false]
    refine write_goodW _ (foldl_invariant
      (fun acc : WriterWithCursor × Cursor => GoodW acc.1) _ _ _ ?_ (write_goodW _ h))
    intro acc key hacc
    obtain ⟨w1, c1⟩ := acc
    dsimp only
    repeat' first
      | apply writef_goodW
      | apply write_goodW
      | apply goodW_ite_fst
      | exact hacc

theorem renderTypes_good (d : Declarations) {w : WriterWithCursor} (h : GoodW w) :
    GoodW (d.renderTypes w).1 := by
  unfold Declarations.renderTypes
  by_cases hl : d.types.length = 0
  · simpa [hl] using h
  · simp only [hl, if_false]
    refine write_goodW _ (foldl_invariant
      (fun acc : WriterWithCursor × Cursor => GoodW acc.1) _ _ _ ?_ h)
    intro acc key hacc
    obtain ⟨w1, c1⟩ := acc
    dsimp only
    repeat' first
      | apply writef_goodW
      | apply write_goodW
      | apply goodW_ite_fst
      | exact hacc

theorem renderFunctions_good (d : Declarations) {w : WriterWithCursor} (h : GoodW w) :
    GoodW (d.renderFunctions w).1 := by
  unfold Declarations.renderFunctions
  by_cases hl : d.functions.length = 0
  · simpa [hl] using h
  · simp only [hl, if_false]
    refine foldl_invariant
      (fun acc : WriterWithCursor × Cursor => GoodW acc.1) _ _ _ ?_ h
    intro acc key hacc
    obtain ⟨w1, c1⟩ := acc
    dsimp only
    repeat' first
      | apply writef_goodW
      | apply write_goodW
      | apply goodW_ite_fst
      | exact hacc

theorem constantRender_good (c : Constant) {w : WriterWithCursor} (cursor : Cursor)
    (h : GoodW w) : GoodW (c.render w cursor).1 := by
  unfold Constant.render
  repeat' first
    | apply writef_goodW
    | apply write_goodW
    | apply goodW_ite_fst
    | exact h

theorem renderConstBlockLoop_good (m : List (String × Constant)) :
    ∀ (fuel : Nat) (cur : Option Constant) {w : WriterWithCursor} (cursor : Cursor),
      GoodW w → GoodW (renderConstBlockLoop m fuel cur w cursor).1
  | fuel, none, w, cursor, h => by cases fuel <;> exact h
  | 0, some c, w, cursor, h => h
  | fuel + 1, some c, w, cursor, h => by
    rw [renderConstBlockLoop_succ]
    exact renderConstBlockLoop_good m fuel _ _
      (write_goodW _ (constantRender_good c _ (write_goodW _ h)))

theorem renderConstants_good (d : Declarations) {w : WriterWithCursor} (h : GoodW w) :
    GoodW (d.renderConstants w).1 := by
  unfold Declarations.renderConstants
  by_cases hl : d.constants.length = 0
  · simpa [hl] using h
  · simp only [hl, if_false]
    refine foldl_invariant
      (fun acc : WriterWithCursor × Cursor => GoodW acc.1) _ _ _ ?_ h
    intro acc key hacc
    obtain ⟨w1, c1⟩ := acc
    dsimp only
    split
    · repeat' first
        | apply write_goodW
        | apply constantRender_good
        | exact hacc
    · apply write_goodW
      apply renderConstBlockLoop_good
      apply write_goodW
      exact hacc

theorem runPhase_good (st : PhaseState)
    (render : WriterWithCursor → WriterWithCursor × Cursor) (name : String)
    (hw : GoodW st.w) (hab : st.aborted = false) (herr : st.err = none)
    (hrender : ∀ w, GoodW w → GoodW (render w).1) :
    GoodW (runPhase st render name).w
    ∧ (runPhase st render name).aborted = false
    ∧ (runPhase st render name).err = none
    ∧ (runPhase st render name).w = (render st.w).1 := by
  unfold runPhase mergeCursorAndReportError
  have hg := hrender st.w hw
  simp only [hab, Bool.false_eq_true, if_false, hg.1, Option.isSome_none]
  split <;> exact ⟨hg, rfl, herr, trivial⟩

/-- On a never-failing sink the five phases all run without aborting and
the composer's named error return stays nil. -/
theorem composerPhasesRun_spec (sink : Sink) (decls : Declarations)
    (hcap : sink.cap = none) :
    GoodW (composerPhasesRun sink decls).w
    ∧ (composerPhasesRun sink decls).aborted = false
    ∧ (composerPhasesRun sink decls).err = none := by
  unfold composerPhasesRun
  simp only [writef_eq_write]
  have h0 : GoodW ((NewWriterWithCursor sink).write "package main\n\n") :=
    write_goodW _ ⟨rfl, hcap⟩
  have h1 := runPhase_good
    { w := (NewWriterWithCursor sink).write "package main\n\n", cursor := NoCursor,
      err := none, phases := [], aborted := false }
    (fun w => decls.renderImports w) "imports" h0 rfl rfl
    (fun w h => renderImports_good decls h)
  have h2 := runPhase_good _ (fun w => decls.renderTypes w) "types"
    h1.1 h1.2.1 h1.2.2.1 (fun w h => renderTypes_good decls h)
  have h3 := runPhase_good _ (fun w => decls.renderConstants w) "constants"
    h2.1 h2.2.1 h2.2.2.1 (fun w h => renderConstants_good decls h)
  have h4 := runPhase_good _ (fun w => decls.renderVariables w) "variables"
    h3.1 h3.2.1 h3.2.2.1 (fun w h => renderVariables_good decls h)
  have h5 := runPhase_good _ (fun w => decls.renderFunctions w) "functions"
    h4.1 h4.2.1 h4.2.2.1 (fun w h => renderFunctions_good decls h)
  exact ⟨h5.1, h5.2.1, h5.2.2.1⟩

/-! ### C9: the entry-point cursor computation -/

/-- C9: when the entry-point declaration carries a marker, the composer
returns line = (marker's relative line) + (sink's line at the time the
entry-point text is written — one past the line after the five phases,
because of the blank separator), and the marker's column is used
directly, with no same-line/later-line branching: the column is
`mainD.cursor.col` even when `mainD.cursor.line = 0`, where
`CursorPlusDelta` would have added the writer's column. -/
theorem entry_point_cursor_direct (sink : Sink) (decls : Declarations)
    (mainD : Function) (hcap : sink.cap = none) (hcur : mainD.hasCursor = true) :
    (createMainContentsFromDecls sink decls (some mainD)).cursor =
      ⟨mainD.cursor.line + ((composerPhasesRun sink decls).w.line + 1),
       mainD.cursor.col⟩ := by
  unfold createMainContentsFromDecls
  obtain ⟨hw, hab, herr⟩ := composerPhasesRun_spec sink decls hcap
  simp only [hab, Bool.false_eq_true, if_false, hcur, if_true]
  rw [writef_eq_write, write_newline _ hw]

theorem entry_point_cursor_direct_witness :
    (⟨"", none, none⟩ : Sink).cap = none
    ∧ exampleEntryFn.hasCursor = true
    ∧ (createMainContentsFromDecls ⟨"", none, none⟩ exampleEmptyDecls
          (some exampleEntryFn)).cursor
        = ⟨exampleEntryFn.cursor.line
             + ((composerPhasesRun ⟨"", none, none⟩ exampleEmptyDecls).w.line + 1),
           exampleEntryFn.cursor.col⟩ :=
  ⟨rfl, by decide, entry_point_cursor_direct _ _ _ rfl (by decide)⟩

/-! ### C1: the phase error is lost, not surfaced -/

/-- C1 (evaluation at the failing input): with a sink that rejects the
very first byte and a declaration model holding one import, the write
fails (the writer's sticky error is the short-write error, and not a
single byte appears on the sink), the imports phase boundary detects it
and aborts — yet the composer's returned error is nil.
`mergeCursorAndReportError` wraps the enclosing `err`, which is still
nil at that point, instead of `w.Error()`, and
`errors.WithMessagef(nil, ...)` returns nil, so the failure is never
surfaced; the claim says the returned error is non-nil and wrapped with
the phase name. -/
theorem sink_error_lost_evaluation :
    (createMainContentsFromDecls ⟨"", some 0, none⟩ exampleAliasDecls none).err = none
    ∧ (createMainContentsFromDecls ⟨"", some 0, none⟩ exampleAliasDecls none).w.err
        = some (.shortWrite "package main\n\n" 14 0)
    ∧ (createMainContentsFromDecls ⟨"", some 0, none⟩ exampleAliasDecls none).w.sink.written
        = ""
    ∧ (createMainContentsFromDecls ⟨"", some 0, none⟩ exampleAliasDecls none).phases
        = ["imports"] := by
  refine ⟨by decide, by decide, by decide, by decide⟩

/-! ### C6: the composer stops at the first phase boundary after an error -/

/-- C6 (counterexample): with the capacity-0 sink, one import and an
entry-point declaration supplied, the trace of invoked phases is
`["imports"]` — the types/constants/variables/functions renderers and
the entry-point write are never invoked, while the claim requires the
full fixed sequence. -/
theorem composer_phases_counterexample :
    (createMainContentsFromDecls ⟨"", some 0, none⟩ exampleImportsA
        (some exampleEntryFn)).phases = ["imports"]
    ∧ (["imports"] : List String)
        ≠ ["imports", "types", "constants", "variables", "functions", "entry-point"] := by
  exact ⟨by decide, by decide⟩

theorem runPhase_aborted (st : PhaseState)
    (render : WriterWithCursor → WriterWithCursor × Cursor) (name : String)
    (h : st.aborted = true) : runPhase st render name = st := by
  unfold runPhase
  simp [h]

theorem renderImports_frozen (d : Declarations) {w : WriterWithCursor} (e : Err)
    (h : w.err = some e) : (d.renderImports w).1 = w := by
  unfold Declarations.renderImports
  by_cases hl : d.imports.length = 0
  · simp [hl]
  · simp only [hl, if_false]
    have hstep : ∀ (acc : WriterWithCursor × Cursor) (key : String),
        acc.1 = w → ((fun (acc : WriterWithCursor × Cursor) key =>
          let (w0, cursor) := acc
          let importDecl : Import := (alookup d.imports key).getD default
          let w0 := w0.write "\t"
          let (w0, cursor) :=
            if importDecl.aliasName ≠ "" then
              let cursor :=
                if importDecl.cursorInAlias then w0.cursorPlusDelta importDecl.cursor
                else cursor
              (w0.writef (importDecl.aliasName ++ " "), cursor)
            else (w0, cursor)
          let cursor :=
            if importDecl.cursorInPath then w0.cursorPlusDelta importDecl.cursor
            else cursor
          (w0.writef (goQuote importDecl.path ++ "\n"), cursor)) acc key).1 = w := by
      intro acc key hacc
      obtain ⟨w1, c1⟩ := acc
      dsimp only at hacc ⊢
      subst hacc
      split <;> simp [write_frozen w1 e h, writef_frozen w1 e h]
    have hf := foldl_invariant (fun acc : WriterWithCursor × Cursor => acc.1 = w)
      _ (sortedKeys d.imports) (w.write "import (\n", NoCursor) hstep
      (write_frozen w e h _)
    refine Eq.trans ?_ (write_frozen w e h ")\n\n")
    exact congrArg (fun x => WriterWithCursor.write x ")\n\n") hf

/-- C6 (amended): once a sink write error has occurred by the time the
first phase boundary is checked, the composer returns at that boundary:
the phase trace is just `["imports"]` (the later renderers and the
entry-point write are not invoked), the final writer is exactly the
frozen preamble writer (no further bytes reach the sink), and the
composer still returns its usual (cursor, error) pair — cursor the
unmapped sentinel, error nil by the C1 defect. -/
theorem composer_stops_after_error (sink : Sink) (decls : Declarations)
    (mainDecl : Option Function) (e : Err)
    (h : ((NewWriterWithCursor sink).write "package main\n\n").err = some e) :
    (createMainContentsFromDecls sink decls mainDecl).phases = ["imports"]
    ∧ (createMainContentsFromDecls sink decls mainDecl).cursor = NoCursor
    ∧ (createMainContentsFromDecls sink decls mainDecl).err = none
    ∧ (createMainContentsFromDecls sink decls mainDecl).w
        = (NewWriterWithCursor sink).write "package main\n\n" := by
  unfold createMainContentsFromDecls composerPhasesRun
  simp only [writef_eq_write]
  have h1 : runPhase
      { w := (NewWriterWithCursor sink).write "package main\n\n", cursor := NoCursor,
        err := none, phases := [], aborted := false }
      (fun w => decls.renderImports w) "imports"
      = { w := (NewWriterWithCursor sink).write "package main\n\n", cursor := NoCursor,
          err := none, phases := ["imports"], aborted := true } := by
    unfold runPhase mergeCursorAndReportError
    simp [renderImports_frozen decls e h, h, wrapErr]
  rw [h1, runPhase_aborted _ _ _ rfl, runPhase_aborted _ _ _ rfl,
    runPhase_aborted _ _ _ rfl, runPhase_aborted _ _ _ rfl]
  simp

theorem composer_stops_after_error_witness :
    (((NewWriterWithCursor ⟨"", some 0, none⟩).write "package main\n\n").err
        = some (.shortWrite "package main\n\n" 14 0))
    ∧ (createMainContentsFromDecls ⟨"", some 0, none⟩ exampleImportsA none).phases
        = ["imports"]
    ∧ (createMainContentsFromDecls ⟨"", some 0, none⟩ exampleImportsA none).cursor
        = NoCursor
    ∧ (createMainContentsFromDecls ⟨"", some 0, none⟩ exampleImportsA none).err = none
    ∧ (createMainContentsFromDecls ⟨"", some 0, none⟩ exampleImportsA none).w
        = (NewWriterWithCursor ⟨"", some 0, none⟩).write "package main\n\n" :=
  ⟨by decide,
   composer_stops_after_error ⟨"", some 0, none⟩ exampleImportsA none
     (.shortWrite "package main\n\n" 14 0) (by decide)⟩

/-! ### C7: error precedence -/

/-- C7: each composition call returns a single optional error, and an
earlier write error takes precedence over a later close error.  In
`writeLinesToFile`: when the line-writing loop produced an error, that
(wrapped) error is returned unchanged regardless of what `Close`
reports; the close error is reported (wrapped) only when the loop
finished clean.  In `createMainFileFromDecls`: its error merging,
`mainFileErrCombine`, returns the wrapped content error even when a
close error is also present, and the wrapped close error only when no
content error exists. -/
theorem error_precedence (filePath : String) (f f2 : Sink) (lines : List String)
    (e : Err) :
    (writeLinesLoop filePath f lines = (some e, f2) →
       (writeLinesToFile filePath (.ok f) lines).1 = some e)
    ∧ (writeLinesLoop filePath f lines = (none, f2) →
       (writeLinesToFile filePath (.ok f) lines).1
         = f2.closeErr.map (.wrapped ("closing " ++ goQuote filePath)))
    ∧ (∀ e₂ : Err,
        mainFileErrCombine (some e) (some e₂) = some (.wrapped "creating main.go" e)
        ∧ mainFileErrCombine none (some e₂) = some (.wrapped "closing main.go" e₂)
        ∧ mainFileErrCombine none none = none) := by
  refine ⟨?_, ?_, ?_⟩
  · intro h
    unfold writeLinesToFile
    dsimp only
    rw [h]
    cases hce : f2.closeErr <;> simp [Sink.close, hce]
  · intro h
    unfold writeLinesToFile
    dsimp only
    rw [h]
    cases hce : f2.closeErr <;> simp [Sink.close, hce]
  · intro e₂
    exact ⟨rfl, rfl, rfl⟩

theorem error_precedence_witness :
    (writeLinesLoop "out.go" exampleFailFile ["hello"]
       = (some (.wrapped ("writing to " ++ goQuote "out.go") .ioFailure),
          ⟨"hel", some 3, some .ioFailure⟩))
    ∧ (writeLinesToFile "out.go" (.ok exampleFailFile) ["hello"]).1
        = some (.wrapped ("writing to " ++ goQuote "out.go") .ioFailure) :=
  ⟨by decide,
   (error_precedence "out.go" exampleFailFile ⟨"hel", some 3, some .ioFailure⟩
      ["hello"] (.wrapped ("writing to " ++ goQuote "out.go") .ioFailure)).1 (by decide)⟩



theorem goodW_ite {c : Prop} [Decidable c] {p q : WriterWithCursor}
    (hp : GoodW p) (hq : GoodW q) : GoodW (if c then p else q) := by
  split
  · exact hp
  · exact hq

theorem goFileStep_good (skipLines : List Nat) (cursorInCell : Cursor)
    {st : GoFileLoopState} (p : Nat × String) (h : GoodW st.w) :
    GoodW ((goFileStep skipLines cursorInCell st p).w) := by
  obtain ⟨ii, line⟩ := p
  unfold goFileStep
  dsimp only
  split
  · exact write_goodW _ h
  · split
    · exact h
    · exact write_goodW _ (write_goodW _ (goodW_ite (write_goodW _ h) h))

theorem enumFromN_ge {α : Type} : ∀ (l : List α) (n : Nat), ∀ p ∈ enumFromN n l, n ≤ p.1
  | [], _, p, hp => absurd hp (by simp [enumFromN])
  | a :: l, n, p, hp => by
    simp only [enumFromN, List.mem_cons] at hp
    rcases hp with rfl | hp
    · exact le_refl n
    · exact le_trans (Nat.le_succ n) (enumFromN_ge l (n + 1) p hp)

theorem enumFromN_mem_snd : ∀ (l : List String) (n : Nat) (p : Nat × String),
    p ∈ enumFromN n l → p.2 = l.getD (p.1 - n) ""
  | [], _, p, hp => absurd hp (by simp [enumFromN])
  | a :: l, n, p, hp => by
    simp only [enumFromN, List.mem_cons] at hp
    rcases hp with rfl | hp
    · simp
    · have h1 := enumFromN_ge l (n + 1) p hp
      have h2 := enumFromN_mem_snd l (n + 1) p hp
      rw [h2]
      have h3 : p.1 - n = (p.1 - (n + 1)) + 1 := by omega
      rw [h3]
      simp [List.getD_cons_succ]

theorem enumFromN_append {α : Type} : ∀ (l₁ l₂ : List α) (n : Nat),
    enumFromN n (l₁ ++ l₂) = enumFromN n l₁ ++ enumFromN (n + l₁.length) l₂
  | [], l₂, n => by simp [enumFromN]
  | a :: l₁, l₂, n => by
    have ih := enumFromN_append l₁ l₂ (n + 1)
    show (n, a) :: enumFromN (n + 1) (l₁ ++ l₂)
        = (n, a) :: enumFromN (n + 1) l₁ ++ enumFromN (n + (a :: l₁).length) l₂
    rw [ih, List.length_cons]
    have h2 : n + 1 + l₁.length = n + (l₁.length + 1) := by omega
    rw [h2]
    rfl

theorem goFileLoop_cursor_frozen (skipLines : List Nat) (cursorInCell : Cursor) :
    ∀ (l : List String) (n : Nat) (st : GoFileLoopState),
      (∀ p ∈ enumFromN n l, (p.1 : Int) = cursorInCell.line →
         (isDirectiveLine p.2 = true ∨ p.1 ∈ skipLines)) →
      ((enumFromN n l).foldl (goFileStep skipLines cursorInCell) st).cursorInFile
        = st.cursorInFile
  | [], n, st, _ => rfl
  | a :: l, n, st, h => by
    simp only [enumFromN, List.foldl_cons]
    rw [goFileLoop_cursor_frozen skipLines cursorInCell l (n + 1) _
      (fun p hp => h p (List.mem_cons_of_mem _ hp))]
    unfold goFileStep
    dsimp only
    split
    · rfl
    · split
      · rfl
      · next hdir hskip =>
        have hne : ¬ ((n : Int) = cursorInCell.line) := fun he => by
          rcases h (n, a) (List.mem_cons_self _ _) he with h' | h'
          · exact hdir h'
          · exact hskip h'
        dsimp only
        rw [if_neg hne]

theorem goFileLoop_flag (skipLines : List Nat) (cursorInCell : Cursor) :
    ∀ (l : List String) (n : Nat) (st : GoFileLoopState),
      ((enumFromN n l).foldl (goFileStep skipLines cursorInCell) st).createdFuncMain
        = (st.createdFuncMain || l.any isDirectiveLine)
  | [], n, st => by simp [enumFromN]
  | a :: l, n, st => by
    simp only [enumFromN, List.foldl_cons, List.any_cons]
    rw [goFileLoop_flag skipLines cursorInCell l (n + 1) _]
    by_cases hdir : isDirectiveLine a = true
    · simp [goFileStep, hdir]
    · simp only [Bool.not_eq_true] at hdir
      unfold goFileStep
      dsimp only
      rw [if_neg (by simp [hdir])]
      split
      · simp [hdir]
      · simp [hdir]

theorem createGoFileFromLines_cursor (filePath : String) (f : Sink)
    (lines : List String) (skipLines : List Nat) (cursorInCell : Cursor) :
    (createGoFileFromLines filePath (.ok f) lines skipLines cursorInCell).cursorInFile =
      ((enumFromN 0 lines).foldl (goFileStep skipLines cursorInCell)
        { w := (NewWriterWithCursor f).write "package main\n\n",
          createdFuncMain := false, cursorInFile := NoCursor }).cursorInFile := by
  unfold createGoFileFromLines
  dsimp only
  split
  · split
    · rfl
    · split <;> rfl
  · split
    · rfl
    · split <;> rfl



theorem goFileStep_closeErr (skipLines : List Nat) (cursorInCell : Cursor)
    {st : GoFileLoopState} (p : Nat × String) (h : GoodW st.w) :
    (goFileStep skipLines cursorInCell st p).w.sink.closeErr = st.w.sink.closeErr := by
  obtain ⟨ii, line⟩ := p
  unfold goFileStep
  dsimp only
  split
  · exact write_closeErr _ h
  · split
    · rfl
    · by_cases htab : (st.createdFuncMain && (line != "")) = true
      · rw [if_pos htab]
        rw [write_closeErr _ (write_goodW _ (write_goodW _ h)),
          write_closeErr _ (write_goodW _ h), write_closeErr _ h]
      · rw [if_neg htab]
        rw [write_closeErr _ (write_goodW _ h), write_closeErr _ h]

theorem goFileStep_normal (skipLines : List Nat) (cursorInCell : Cursor)
    (st : GoFileLoopState) (ii : Nat) (line : String)
    (hdir : ¬ isDirectiveLine line = true) (hskip : ii ∉ skipLines)
    (hmatch : (ii : Int) = cursorInCell.line) :
    goFileStep skipLines cursorInCell st (ii, line) =
      (let w := if st.createdFuncMain && (line != "") then st.w.write "\t" else st.w
       { w := (w.write line).write "\n", createdFuncMain := st.createdFuncMain,
         cursorInFile := w.cursorPlusDelta ⟨0, cursorInCell.col⟩ }) := by
  unfold goFileStep
  dsimp only
  rw [if_neg hdir, if_neg hskip, if_pos hmatch]

/-! ### C5: the raw-line composer's designated-position mapping -/

/-- C5 (amended): when the loop reaches the input line whose index
equals the designated cell position's line, and that line is neither a
shorthand-directive line nor excluded, the returned mapped position is
the sink's current position at that moment with the designated column
ADDED to its column (the current column is 1 when the line receives the
wrapper's indent tab, else 0 — so "replaced by" holds exactly when no
indent was inserted); and if the designated line's index is excluded, or
the designated line is a directive line, the returned cursor is the
unmapped sentinel and — on a healthy file — the error is nil. -/
theorem raw_line_cursor_mapping (filePath : String) (f : Sink) (lines : List String)
    (skipLines : List Nat) (cursorInCell : Cursor) (ii : Nat)
    (hcap : f.cap = none) (hline : cursorInCell.line = (ii : Int))
    (hii : ii < lines.length) :
    ((¬ isDirectiveLine (lines.getD ii "") = true) → ii ∉ skipLines →
      (createGoFileFromLines filePath (.ok f) lines skipLines cursorInCell).cursorInFile =
        (let stPre := (enumFromN 0 (lines.take ii)).foldl (goFileStep skipLines cursorInCell)
           { w := (NewWriterWithCursor f).write "package main\n\n",
             createdFuncMain := false, cursorInFile := NoCursor }
         if stPre.createdFuncMain && (lines.getD ii "" != "") then
           ⟨stPre.w.line, stPre.w.col + 1 + cursorInCell.col⟩
         else
           ⟨stPre.w.line, stPre.w.col + cursorInCell.col⟩))
    ∧ ((isDirectiveLine (lines.getD ii "") = true ∨ ii ∈ skipLines) →
      (createGoFileFromLines filePath (.ok f) lines skipLines cursorInCell).cursorInFile
          = NoCursor
      ∧ (f.closeErr = none →
          (createGoFileFromLines filePath (.ok f) lines skipLines cursorInCell).err = none)) := by
  have hgood0 : GoodW ((NewWriterWithCursor f).write "package main\n\n") :=
    write_goodW _ ⟨rfl, hcap⟩
  constructor
  · intro hdir hskip
    rw [createGoFileFromLines_cursor]
    have hsplit : lines = lines.take ii ++ lines.getD ii "" :: lines.drop (ii + 1) := by
      conv_lhs => rw [← List.take_append_drop ii lines]
      rw [List.getD_eq_getElem lines "" hii, ← List.drop_eq_getElem_cons hii]
    conv_lhs => rw [hsplit]
    rw [enumFromN_append, List.foldl_append]
    have hlen : (lines.take ii).length = ii := by
      rw [List.length_take]
      omega
    rw [hlen, Nat.zero_add]
    rw [show enumFromN ii (lines.getD ii "" :: lines.drop (ii + 1))
        = (ii, lines.getD ii "") :: enumFromN (ii + 1) (lines.drop (ii + 1)) from rfl,
      List.foldl_cons]
    rw [goFileLoop_cursor_frozen skipLines cursorInCell _ _ _ (fun p hp he => by
      have h1 : ii + 1 ≤ p.1 := enumFromN_ge _ _ p hp
      have h2 : p.1 = ii := Int.natCast_inj.mp (he.trans hline)
      omega)]
    have hgoodPre : GoodW ((enumFromN 0 (lines.take ii)).foldl
        (goFileStep skipLines cursorInCell)
        { w := (NewWriterWithCursor f).write "package main\n\n",
          createdFuncMain := false, cursorInFile := NoCursor }).w :=
      foldl_invariant (fun st : GoFileLoopState => GoodW st.w) _ _ _
        (fun st p h => goFileStep_good skipLines cursorInCell p h) hgood0
    rw [goFileStep_normal skipLines cursorInCell _ ii (lines.getD ii "") hdir hskip
      hline.symm]
    dsimp only
    by_cases htab : (((enumFromN 0 (lines.take ii)).foldl
        (goFileStep skipLines cursorInCell)
        { w := (NewWriterWithCursor f).write "package main\n\n",
          createdFuncMain := false, cursorInFile := NoCursor }).createdFuncMain
        && (lines.getD ii "" != "")) = true
    · rw [if_pos htab, if_pos htab, write_tab _ hgoodPre]
      unfold WriterWithCursor.cursorPlusDelta WriterWithCursor.cursor
      rw [if_neg (by decide : ¬ ((0 : Int) > 0))]
      simp only [Cursor.mk.injEq]
      constructor
      · ring
      · ring
    · rw [if_neg htab, if_neg htab]
      unfold WriterWithCursor.cursorPlusDelta WriterWithCursor.cursor
      rw [if_neg (by decide : ¬ ((0 : Int) > 0))]
      simp only [Cursor.mk.injEq]
      constructor
      · ring
      · ring
  · intro hB
    constructor
    · rw [createGoFileFromLines_cursor]
      exact goFileLoop_cursor_frozen skipLines cursorInCell _ _ _ (fun p hp he => by
        have h2 : p.1 = ii := Int.natCast_inj.mp (he.trans hline)
        have h3 : p.2 = lines.getD ii "" := by
          have := enumFromN_mem_snd lines 0 p hp
          simpa [h2] using this
        rcases hB with hB | hB
        · exact Or.inl (h3 ▸ hB)
        · exact Or.inr (h2 ▸ hB))
    · intro hclose
      have hinv := foldl_invariant
        (fun st : GoFileLoopState => GoodW st.w ∧ st.w.sink.closeErr = none)
        (goFileStep skipLines cursorInCell) (enumFromN 0 lines)
        { w := (NewWriterWithCursor f).write "package main\n\n",
          createdFuncMain := false, cursorInFile := NoCursor }
        (fun st p hp => ⟨goFileStep_good skipLines cursorInCell p hp.1,
          (goFileStep_closeErr skipLines cursorInCell p hp.1).trans hp.2⟩)
        ⟨hgood0, (write_closeErr _ ⟨rfl, hcap⟩).trans hclose⟩
      unfold createGoFileFromLines
      dsimp only
      by_cases hflag : ((enumFromN 0 lines).foldl (goFileStep skipLines cursorInCell)
          { w := (NewWriterWithCursor f).write "package main\n\n",
            createdFuncMain := false, cursorInFile := NoCursor }).createdFuncMain = true
      · rw [if_pos hflag]
        have hg2 : GoodW (((enumFromN 0 lines).foldl (goFileStep skipLines cursorInCell)
            { w := (NewWriterWithCursor f).write "package main\n\n",
              createdFuncMain := false, cursorInFile := NoCursor }).w.write "\n\x7d\n") :=
          write_goodW _ hinv.1
        rw [show (((enumFromN 0 lines).foldl (goFileStep skipLines cursorInCell)
            { w := (NewWriterWithCursor f).write "package main\n\n",
              createdFuncMain := false, cursorInFile := NoCursor }).w.write "\n\x7d\n").err.isSome
            = false by rw [hg2.1]; rfl]
        simp only [Bool.false_eq_true, if_false]
        rw [show (((enumFromN 0 lines).foldl (goFileStep skipLines cursorInCell)
            { w := (NewWriterWithCursor f).write "package main\n\n",
              createdFuncMain := false, cursorInFile := NoCursor }).w.write "\n\x7d\n").sink.close
            = none from (write_closeErr _ hinv.1).trans hinv.2]
      · rw [if_neg hflag]
        rw [show (((enumFromN 0 lines).foldl (goFileStep skipLines cursorInCell)
            { w := (NewWriterWithCursor f).write "package main\n\n",
              createdFuncMain := false, cursorInFile := NoCursor }).w).err.isSome
            = false by rw [hinv.1.1]; rfl]
        simp only [Bool.false_eq_true, if_false]
        rw [show (((enumFromN 0 lines).foldl (goFileStep skipLines cursorInCell)
            { w := (NewWriterWithCursor f).write "package main\n\n",
              createdFuncMain := false, cursorInFile := NoCursor }).w).sink.close
            = none from hinv.2]



/-- C5 (counterexample): lines `["%%", "print(x)"]`, no exclusions,
designated position (1,0).  Line 1 is indented inside the synthesized
wrapper, so the sink's position at mapping time is (4,1) (after the
tab); the code ADDS the designated column 0 and returns (4,1), while
the claim's "column replaced by the designated column" predicts (4,0). -/
theorem raw_line_counterexample :
    (createGoFileFromLines "main.go" (.ok ⟨"", none, none⟩) ["%%", "print(x)"] []
        ⟨1, 0⟩).cursorInFile = ⟨4, 1⟩
    ∧ (⟨4, 1⟩ : Cursor) ≠ ⟨4, 0⟩ := by
  exact ⟨by decide, by decide⟩

theorem raw_line_cursor_mapping_witness :
    ((createGoFileFromLines "main.go" (.ok ⟨"", none, none⟩) ["x := 1", "print(x)"] []
        ⟨1, 2⟩).cursorInFile =
      (let stPre := (enumFromN 0 (["x := 1", "print(x)"].take 1)).foldl
         (goFileStep [] ⟨1, 2⟩)
         { w := (NewWriterWithCursor ⟨"", none, none⟩).write "package main\n\n",
           createdFuncMain := false, cursorInFile := NoCursor }
       if stPre.createdFuncMain && (["x := 1", "print(x)"].getD 1 "" != "") then
         ⟨stPre.w.line, stPre.w.col + 1 + (⟨1, 2⟩ : Cursor).col⟩
       else
         ⟨stPre.w.line, stPre.w.col + (⟨1, 2⟩ : Cursor).col⟩))
    ∧ (createGoFileFromLines "main.go" (.ok ⟨"", none, none⟩) ["%%", "print(x)"] [1]
        ⟨1, 5⟩).cursorInFile = NoCursor :=
  ⟨(raw_line_cursor_mapping "main.go" ⟨"", none, none⟩ ["x := 1", "print(x)"] [] ⟨1, 2⟩ 1
      rfl (by decide) (by decide)).1 (by decide) (by decide),
   ((raw_line_cursor_mapping "main.go" ⟨"", none, none⟩ ["%%", "print(x)"] [1] ⟨1, 5⟩ 1
      rfl (by decide) (by decide)).2 (by decide)).1⟩

/-! ### C10: the directive test precedes the excluded-line test -/

/-- C10: the shorthand-directive test runs before the excluded-line
test, so a step on any directive-prefixed line — its index may well be
in skipLines, which is never consulted — appends exactly the wrapper
header text once and sets the flag (first two conjuncts); the flag after
the loop is set iff at least one directive line was seen (third
conjunct); and the closing text is appended to the loop's output at most
once, after the last input line, exactly when some directive line was
seen (fourth conjunct). -/
theorem directive_before_skip (skipLines : List Nat) (cursorInCell : Cursor)
    (st : GoFileLoopState) (ii : Nat) (line : String) (filePath : String)
    (f : Sink) (lines : List String) :
    (isDirectiveLine line = true →
       goFileStep skipLines cursorInCell st (ii, line)
         = { st with w := st.w.write "func main() \x7b\n\tflag.Parse\n",
                     createdFuncMain := true })
    ∧ (isDirectiveLine line = true → GoodW st.w →
       (goFileStep skipLines cursorInCell st (ii, line)).w.sink.written
         = st.w.sink.written ++ "func main() \x7b\n\tflag.Parse\n")
    ∧ ((enumFromN 0 lines).foldl (goFileStep skipLines cursorInCell) st).createdFuncMain
        = (st.createdFuncMain || lines.any isDirectiveLine)
    ∧ (f.cap = none →
       (createGoFileFromLines filePath (.ok f) lines skipLines cursorInCell).sink.map
           Sink.written
         = some ((((enumFromN 0 lines).foldl (goFileStep skipLines cursorInCell)
             { w := (NewWriterWithCursor f).write "package main\n\n",
               createdFuncMain := false, cursorInFile := NoCursor }).w.sink.written)
             ++ (if lines.any isDirectiveLine then "\n\x7d\n" else ""))) := by
  refine ⟨?_, ?_, ?_, ?_⟩
  · intro h
    unfold goFileStep
    dsimp only
    rw [if_pos h]
  · intro h hg
    have h1 : goFileStep skipLines cursorInCell st (ii, line)
        = { st with w := st.w.write "func main() \x7b\n\tflag.Parse\n",
                    createdFuncMain := true } := by
      unfold goFileStep
      dsimp only
      rw [if_pos h]
    rw [h1]
    exact write_written _ hg
  · exact goFileLoop_flag _ _ lines 0 st
  · intro hcap
    have hg0 : GoodW ((NewWriterWithCursor f).write "package main\n\n") :=
      write_goodW _ ⟨rfl, hcap⟩
    have hgl : GoodW (((enumFromN 0 lines).foldl (goFileStep skipLines cursorInCell)
        { w := (NewWriterWithCursor f).write "package main\n\n",
          createdFuncMain := false, cursorInFile := NoCursor }).w) :=
      foldl_invariant (fun st : GoFileLoopState => GoodW st.w) _ _ _
        (fun st p h => goFileStep_good skipLines cursorInCell p h) hg0
    unfold createGoFileFromLines
    dsimp only
    rw [goFileLoop_flag skipLines cursorInCell lines 0 _]
    simp only [Bool.false_or]
    by_cases hany : lines.any isDirectiveLine = true
    · rw [if_pos hany, if_pos hany]
      have hg2 : GoodW ((((enumFromN 0 lines).foldl (goFileStep skipLines cursorInCell)
          { w := (NewWriterWithCursor f).write "package main\n\n",
            createdFuncMain := false, cursorInFile := NoCursor }).w).write "\n\x7d\n") :=
        write_goodW _ hgl
      rw [show ((((enumFromN 0 lines).foldl (goFileStep skipLines cursorInCell)
          { w := (NewWriterWithCursor f).write "package main\n\n",
            createdFuncMain := false, cursorInFile := NoCursor }).w).write
            "\n\x7d\n").err.isSome = false from by rw [hg2.1]; rfl]
      simp only [Bool.false_eq_true, if_false]
      split <;> simp [write_written _ hgl]
    · simp only [Bool.not_eq_true] at hany
      rw [hany]
      simp only [Bool.false_eq_true, if_false]
      rw [show (((enumFromN 0 lines).foldl (goFileStep skipLines cursorInCell)
          { w := (NewWriterWithCursor f).write "package main\n\n",
            createdFuncMain := false, cursorInFile := NoCursor }).w).err.isSome
          = false from by rw [hgl.1]; rfl]
      simp only [Bool.false_eq_true, if_false]
      split <;> simp

theorem directive_before_skip_witness :
    isDirectiveLine "%%" = true
    ∧ (goFileStep [0] NoCursor
        { w := NewWriterWithCursor ⟨"", none, none⟩, createdFuncMain := false,
          cursorInFile := NoCursor } (0, "%%")).w.sink.written
        = (NewWriterWithCursor ⟨"", none, none⟩).sink.written
          ++ "func main() \x7b\n\tflag.Parse\n"
    ∧ (createGoFileFromLines "main.go" (.ok ⟨"", none, none⟩) ["%%"] [0]
          NoCursor).sink.map Sink.written
      = some ((((enumFromN 0 ["%%"]).foldl (goFileStep [0] NoCursor)
          { w := (NewWriterWithCursor ⟨"", none, none⟩).write "package main\n\n",
            createdFuncMain := false, cursorInFile := NoCursor }).w.sink.written)
          ++ (if ["%%"].any isDirectiveLine then "\n\x7d\n" else "")) :=
  ⟨by decide,
   (directive_before_skip [0] NoCursor
      { w := NewWriterWithCursor ⟨"", none, none⟩, createdFuncMain := false,
        cursorInFile := NoCursor } 0 "%%" "main.go" ⟨"", none, none⟩ ["%%"]).2.1
     (by decide) ⟨rfl, rfl⟩,
   (directive_before_skip [0] NoCursor
      { w := NewWriterWithCursor ⟨"", none, none⟩, createdFuncMain := false,
        cursorInFile := NoCursor } 0 "%%" "main.go" ⟨"", none, none⟩ ["%%"]).2.2.2 rfl⟩

end GoNB
